import Mathlib

/-!
Verification development for a typed Backblaze B2 HTTP client consisting of a
Session Client (class B2) and a Bucket-Scoped Facade (class B2Bucket).

The embedding models each client operation as a pure function from the client
state (and the call arguments) to either a client-side error (raised before any
network traffic happens) or the HTTP request that the operation hands to the
transport.  Strings are modelled as Lean strings, byte buffers as lists of
naturals below 256, and JavaScript `undefined`-able values as `Option`.
-/

set_option maxRecDepth 40000

namespace EZB2

/-! ## JavaScript string primitives: percent encoding, split and join -/

/-- Uppercase hexadecimal digit, as emitted by `encodeURIComponent`. -/
def hexUpperChar (n : Nat) : Char :=
  Char.ofNat (if n < 10 then 48 + n else 55 + n)

/-- Lowercase hexadecimal digit, as emitted by the node `hex` digest encoding. -/
def hexLowerChar (n : Nat) : Char :=
  Char.ofNat (if n < 10 then 48 + n else 87 + n)

/-- Numeric value of a hexadecimal digit character (0 on other characters). -/
def hexVal (c : Char) : Nat :=
  if 48 ≤ c.toNat ∧ c.toNat ≤ 57 then c.toNat - 48
  else if 65 ≤ c.toNat ∧ c.toNat ≤ 70 then c.toNat - 55
  else if 97 ≤ c.toNat ∧ c.toNat ≤ 102 then c.toNat - 87
  else 0

/-- Code points left unescaped by `encodeURIComponent`: ASCII letters, digits,
and the marks `-` `_` `.` `!` `~` `*` `(` `)` together with the single
quote (code 39). -/
def isUnreservedCode (n : Nat) : Prop :=
  (65 ≤ n ∧ n ≤ 90) ∨ (97 ≤ n ∧ n ≤ 122) ∨ (48 ≤ n ∧ n ≤ 57) ∨
    n = 45 ∨ n = 95 ∨ n = 46 ∨ n = 33 ∨ n = 126 ∨ n = 42 ∨ n = 39 ∨ n = 40 ∨ n = 41

instance decIsUnreservedCode (n : Nat) : Decidable (isUnreservedCode n) := by
  unfold isUnreservedCode; infer_instance

/-- UTF-8 byte sequence of a Unicode code point. -/
def utf8Bytes (n : Nat) : List Nat :=
  if n < 128 then [n]
  else if n < 2048 then [192 + n / 64, 128 + n % 64]
  else if n < 65536 then [224 + n / 4096, 128 + n / 64 % 64, 128 + n % 64]
  else [240 + n / 262144, 128 + n / 4096 % 64, 128 + n / 64 % 64, 128 + n % 64]

/-- Percent escape of one byte: a percent sign and two uppercase hex digits. -/
def percentTriple (b : Nat) : List Char :=
  ['%', hexUpperChar (b / 16), hexUpperChar (b % 16)]

/-- Encoding of a single character under `encodeURIComponent`. -/
def encodeChar (c : Char) : List Char :=
  if isUnreservedCode c.toNat then [c]
  else (utf8Bytes c.toNat).flatMap percentTriple

/-- Model of the JavaScript `encodeURIComponent` builtin on a character list. -/
def encodeURIComponent (s : List Char) : List Char :=
  s.flatMap encodeChar

/-- Extension of the first split segment by one leading character. -/
def consHead (c : Char) : List (List Char) → List (List Char)
  | s :: rest => (c :: s) :: rest
  | [] => [[c]]

/-- Model of the JavaScript `String.prototype.split` with separator `"/"`. -/
def splitOnSlash : List Char → List (List Char)
  | [] => [[]]
  | c :: cs =>
    if c = '/' then [] :: splitOnSlash cs
    else consHead c (splitOnSlash cs)

/-- Model of the JavaScript `Array.prototype.join` with separator `"/"`. -/
def joinSlash : List (List Char) → List Char
  | [] => []
  | [s] => s
  | s :: ps => s ++ '/' :: joinSlash ps

/-- Model of `getUrlEncodedFilename` from `src/util.ts`: split the filename on
`/`, percent-encode each segment with `encodeURIComponent`, and rejoin the
segments with `/`. -/
def getUrlEncodedFilename (filename : List Char) : List Char :=
  joinSlash ((splitOnSlash filename).map encodeURIComponent)

/-- String-typed wrapper of `getUrlEncodedFilename`, matching the source
signature `(filename: string) => string`. -/
def getUrlEncodedFilenameStr (filename : String) : String :=
  String.mk (getUrlEncodedFilename filename.data)

/-- Percent-unescaping pass of `decodeURIComponent`: a `%` followed by two
digits yields one byte, every other character contributes its UTF-8 bytes
(truncated escapes, which only occur on malformed input, give byte 37). -/
def percentParse : List Char → List Nat
  | [] => []
  | [c] => if c = '%' then [37] else utf8Bytes c.toNat
  | [c, d] => if c = '%' then [37] else utf8Bytes c.toNat ++ percentParse [d]
  | c :: d :: e :: rest =>
    if c = '%' then (hexVal d * 16 + hexVal e) :: percentParse rest
    else utf8Bytes c.toNat ++ percentParse (d :: e :: rest)

/-- UTF-8 decoding step machine: `acc` holds the bits read so far of the
current code point and `need` the number of continuation bytes still
expected.  Malformed or truncated input, which never arises on encoder
output, garbage-decodes instead of failing. -/
def utf8DecodeGo : Nat → Nat → List Nat → List Char
  | _, _, [] => []
  | acc, need, b :: bs =>
    if need = 1 then Char.ofNat (acc * 64 + (b - 128)) :: utf8DecodeGo 0 0 bs
    else if 2 ≤ need then utf8DecodeGo (acc * 64 + (b - 128)) (need - 1) bs
    else if b < 128 then Char.ofNat b :: utf8DecodeGo 0 0 bs
    else if b < 224 then utf8DecodeGo (b - 192) 1 bs
    else if b < 240 then utf8DecodeGo (b - 224) 2 bs
    else utf8DecodeGo (b - 240) 3 bs

/-- UTF-8 decoding of a byte list back to characters. -/
def utf8Decode (bs : List Nat) : List Char :=
  utf8DecodeGo 0 0 bs

/-- Model of the JavaScript `decodeURIComponent` builtin on a character list. -/
def decodeURIComponent (s : List Char) : List Char :=
  utf8Decode (percentParse s)

example : getUrlEncodedFilename ("a b/c#d".data) = ("a%20b/c%23d".data) := by decide

example : decodeURIComponent (encodeURIComponent ("héllo→∀".data)) = ("héllo→∀".data) := by
  decide

/-! ## SHA-1, modelling `sha1` from `src/util.ts` (node `createHash("sha1")`
followed by `digest("hex")`) -/

/-- Truncation to a 32-bit word. -/
def w32 (n : Nat) : Nat := n % 4294967296

/-- Left rotation of a 32-bit word by `k` places. -/
def rotl32 (k x : Nat) : Nat :=
  w32 (x <<< k) ||| (x >>> (32 - k))

/-- SHA-1 message padding: a `0x80` byte, zeros to 56 mod 64, then the message
bit length as eight big-endian bytes. -/
def sha1PadBytes (msg : List Nat) : List Nat :=
  let bitLen := msg.length * 8
  msg ++ 128 :: List.replicate ((119 - msg.length % 64) % 64) 0 ++
    [bitLen >>> 56 % 256, bitLen >>> 48 % 256, bitLen >>> 40 % 256, bitLen >>> 32 % 256,
     bitLen >>> 24 % 256, bitLen >>> 16 % 256, bitLen >>> 8 % 256, bitLen % 256]

/-- Big-endian grouping of bytes into 32-bit words. -/
def bytesToWords : List Nat → List Nat
  | b0 :: b1 :: b2 :: b3 :: rest =>
    (b0 * 16777216 + b1 * 65536 + b2 * 256 + b3) :: bytesToWords rest
  | _ => []

/-- Splitting a word list into chunks of 16 words (one 64-byte block each). -/
def words16 : List Nat → List (List Nat)
  | w0 :: w1 :: w2 :: w3 :: w4 :: w5 :: w6 :: w7 ::
      w8 :: w9 :: w10 :: w11 :: w12 :: w13 :: w14 :: w15 :: rest =>
    [w0, w1, w2, w3, w4, w5, w6, w7, w8, w9, w10, w11, w12, w13, w14, w15] :: words16 rest
  | _ => []

/-- Message-schedule extension from 16 to 80 words (`fuel` counts the words
still to append). -/
def sha1Extend : Nat → Array Nat → Array Nat
  | 0, w => w
  | fuel + 1, w =>
    let i := w.size
    sha1Extend fuel
      (w.push (rotl32 1 ((w.getD (i - 3) 0) ^^^ (w.getD (i - 8) 0) ^^^
        (w.getD (i - 14) 0) ^^^ (w.getD (i - 16) 0))))

/-- Round function of SHA-1. -/
def sha1F (i b c d : Nat) : Nat :=
  if i < 20 then (b &&& c) ||| ((b ^^^ 4294967295) &&& d)
  else if i < 40 then b ^^^ c ^^^ d
  else if i < 60 then (b &&& c) ||| (b &&& d) ||| (c &&& d)
  else b ^^^ c ^^^ d

/-- Round constants of SHA-1. -/
def sha1K (i : Nat) : Nat :=
  if i < 20 then 1518500249
  else if i < 40 then 1859775393
  else if i < 60 then 2400959708
  else 3395469782

/-- Working state of one SHA-1 compression. -/
structure Sha1State where
  a : Nat
  b : Nat
  c : Nat
  d : Nat
  e : Nat
deriving DecidableEq

/-- The 80 compression rounds (`fuel` counts the remaining rounds, `i` the
current round index). -/
def sha1RoundLoop (w : Array Nat) : Nat → Nat → Sha1State → Sha1State
  | 0, _, st => st
  | fuel + 1, i, st =>
    let temp := w32 (rotl32 5 st.a + sha1F i st.b st.c st.d + st.e + sha1K i + w.getD i 0)
    sha1RoundLoop w fuel (i + 1) ⟨temp, st.a, rotl32 30 st.b, st.c, st.d⟩

/-- Processing of one 16-word (64-byte) chunk. -/
def sha1Chunk (h : Sha1State) (chunk : List Nat) : Sha1State :=
  let w := sha1Extend 64 ⟨chunk⟩
  let st := sha1RoundLoop w 80 0 h
  ⟨w32 (h.a + st.a), w32 (h.b + st.b), w32 (h.c + st.c), w32 (h.d + st.d), w32 (h.e + st.e)⟩

/-- Lowercase hexadecimal rendering of a 32-bit word. -/
def toHex8 (n : Nat) : List Char :=
  [hexLowerChar (n >>> 28 % 16), hexLowerChar (n >>> 24 % 16), hexLowerChar (n >>> 20 % 16),
   hexLowerChar (n >>> 16 % 16), hexLowerChar (n >>> 12 % 16), hexLowerChar (n >>> 8 % 16),
   hexLowerChar (n >>> 4 % 16), hexLowerChar (n % 16)]

/-- Model of `sha1` from `src/util.ts` on a byte buffer: the lowercase
hexadecimal SHA-1 digest of the exact bytes. -/
def sha1 (data : List Nat) : String :=
  let st := (words16 (bytesToWords (sha1PadBytes data))).foldl sha1Chunk
    ⟨1732584193, 4023233417, 2562383102, 271733878, 3285377520⟩
  String.mk (toHex8 st.a ++ toHex8 st.b ++ toHex8 st.c ++ toHex8 st.d ++ toHex8 st.e)

example : sha1 [] = "da39a3ee5e6b4b0d3255bfef95601890afd80709" := by decide

example : sha1 ("abc".data.map Char.toNat) = "a9993e364706816aba3e25717850c26c9cd0d89d" := by
  decide

/-! ## Base64 and UTF-8 helpers for the authorization header -/

/-- The base64 alphabet. -/
def base64Alphabet : List Char :=
  "ABCDEFGHIJKLMNOPQRSTUVWXYZabcdefghijklmnopqrstuvwxyz0123456789+/".data

/-- Base64 digit. -/
def base64Char (n : Nat) : Char := base64Alphabet.getD n 'A'

/-- Standard base64 encoding of a byte list with `=` padding, as produced by
node `Buffer.prototype.toString("base64")`. -/
def base64Encode : List Nat → List Char
  | b0 :: b1 :: b2 :: rest =>
    base64Char (b0 / 4) :: base64Char (b0 % 4 * 16 + b1 / 16) ::
      base64Char (b1 % 16 * 4 + b2 / 64) :: base64Char (b2 % 64) :: base64Encode rest
  | [b0, b1] =>
    [base64Char (b0 / 4), base64Char (b0 % 4 * 16 + b1 / 16), base64Char (b1 % 16 * 4), '=']
  | [b0] => [base64Char (b0 / 4), base64Char (b0 % 4 * 16), '=', '=']
  | [] => []

/-- UTF-8 bytes of a string, as produced by the node `Buffer` constructor on a
string argument. -/
def strBytes (s : String) : List Nat :=
  s.data.flatMap (fun c => utf8Bytes c.toNat)

example : base64Encode (strBytes "acct:key") = "YWNjdDprZXk=".data := by decide

/-! ## HTTP request model -/

/-- JSON values, used both for request bodies and for header values (axios
accepts numbers as header values, e.g. `Content-Length`). -/
inductive Json where
  | str : String → Json
  | num : Int → Json
  | arr : List Json → Json
  | obj : List (String × Json) → Json

/-- Body of an HTTP request: a JSON document, a raw byte payload, or nothing. -/
inductive ReqBody where
  | json : Json → ReqBody
  | bytes : List Nat → ReqBody
  | empty : ReqBody

/-- The HTTP request an operation hands to the transport.  `maxRedirects` is
`some n` when the call configures the transport redirect limit explicitly and
`none` when it leaves the transport default in place. -/
structure HttpRequest where
  method : String
  url : String
  headers : List (String × Json)
  body : ReqBody
  maxRedirects : Option Nat

/-- Lookup of a request header by name. -/
def getHeader (r : HttpRequest) (k : String) : Option Json :=
  (r.headers.find? (fun p => p.1 == k)).map (fun p => p.2)

/-- Lookup of a top-level field of a JSON-object request body. -/
def bodyField (r : HttpRequest) (k : String) : Option Json :=
  match r.body with
  | ReqBody.json (Json.obj fields) => (fields.find? (fun p => p.1 == k)).map (fun p => p.2)
  | _ => none

/-- A key-value pair present only when the value is defined, mirroring the
omission of `undefined` properties by `JSON.stringify`. -/
def optField (k : String) (v : Option Json) : List (String × Json) :=
  match v with
  | some j => [(k, j)]
  | none => []

/-- String field that is omitted when `undefined`. -/
def optStr (k : String) (v : Option String) : List (String × Json) :=
  optField k (v.map Json.str)

/-- Numeric field that is omitted when `undefined`. -/
def optNum (k : String) (v : Option Int) : List (String × Json) :=
  optField k (v.map Json.num)

/-- Model of the JavaScript `x || d` idiom on an optional string: the default
is used when the value is `undefined` or the empty string (both falsy). -/
def jsOrElse (v : Option String) (d : String) : String :=
  match v with
  | some s => if s = "" then d else s
  | none => d

/-- Rendering of an optional string inside a template literal: `undefined`
interpolates as the text `"undefined"`. -/
def jsTemplate (v : Option String) : String :=
  match v with
  | some s => s
  | none => "undefined"

/-! ## Session Client (class `B2`) -/

/-- Version path fragment, `API_VERSION_URL` in the source. -/
def API_VERSION_URL : String := "/b2api/v1"

/-- Fixed absolute authorization endpoint, `API_AUTHORIZE_URL` in the source. -/
def API_AUTHORIZE_URL : String :=
  "https://api.backblaze.com" ++ API_VERSION_URL ++ "/b2_authorize_account"

/-- An axios instance created by `axios.create` during `authorize`: every
request through it is resolved against `baseURL` and carries the session
authorization token as its `Authorization` header. -/
structure AxiosInstance where
  baseURL : String
  authToken : String
deriving DecidableEq

/-- State of a Session Client instance.  The three fields are declared with
definite-assignment assertions in the source (`axios!`, `accountId!`,
`downloadUrl!`) and are `undefined` until `authorize` succeeds, hence the
`Option` types. -/
structure B2 where
  axios : Option AxiosInstance
  accountId : Option String
  downloadUrl : Option String
deriving DecidableEq

/-- A freshly constructed Session Client (`new B2()`): no session fields. -/
def B2.fresh : B2 := ⟨none, none, none⟩

/-- Error raised locally, before any network request is attempted. -/
inductive ClientError where
  /-- TypeError from reading `.post` or `.get` of the `undefined` session
  instance: the operation was invoked before `authorize`. -/
  | missingSession : ClientError
deriving DecidableEq

/-- Outcome of invoking an operation: a local error, or the HTTP request that
is handed to the transport. -/
abbrev Op := Except ClientError HttpRequest

/-- POST through the session instance (`this.axios.post(path, body)`): URL
resolved against the session base URL, session token attached. -/
def sessionPost (inst : AxiosInstance) (path : String) (body : Json) : HttpRequest :=
  { method := "POST"
    url := inst.baseURL ++ path
    headers := [("Authorization", Json.str inst.authToken)]
    body := ReqBody.json body
    maxRedirects := none }

/-- GET through the session instance with an absolute URL (axios ignores the
base URL for absolute request URLs but still attaches the default headers). -/
def sessionGet (inst : AxiosInstance) (url : String) : HttpRequest :=
  { method := "GET"
    url := url
    headers := [("Authorization", Json.str inst.authToken)]
    body := ReqBody.empty
    maxRedirects := none }

/-- Dispatch of `this.axios.post` or `this.axios.get`: reading a property of
the `undefined` instance throws before the request is built. -/
def viaSession (b : B2) (k : AxiosInstance → HttpRequest) : Op :=
  match b.axios with
  | none => Except.error ClientError.missingSession
  | some inst => Except.ok (k inst)

/-- The request issued by `authorize`: a GET on the fixed absolute endpoint
through the global axios export, with HTTP Basic credentials. -/
def B2.authorizeRequest (accountId applicationKey : String) : HttpRequest :=
  { method := "GET"
    url := API_AUTHORIZE_URL
    headers := [("Authorization",
      Json.str ("Basic " ++ String.mk (base64Encode (strBytes (accountId ++ ":" ++ applicationKey)))))]
    body := ReqBody.empty
    maxRedirects := none }

/-- Allowed-capabilities object of an authorization response; `bucketId` is
present only for keys restricted to one bucket. -/
structure AuthAllowed where
  bucketId : Option String
deriving DecidableEq

/-- Decoded body of a successful `b2_authorize_account` response (the fields
the client reads). -/
structure AuthorizationResponse where
  authorizationToken : String
  apiUrl : String
  downloadUrl : String
  allowed : AuthAllowed
deriving DecidableEq

/-- State transition of `authorize` on a successful response: the account id,
a fresh session instance, and the download URL are written unconditionally,
and the decoded response is returned. -/
def B2.authorizeSucceed (_b : B2) (accountId : String) (res : AuthorizationResponse) :
    B2 × AuthorizationResponse :=
  ({ axios := some { baseURL := res.apiUrl ++ API_VERSION_URL
                     authToken := res.authorizationToken }
     accountId := some accountId
     downloadUrl := some res.downloadUrl }, res)

/-- Model of `B2.createBucket`. -/
def B2.createBucket (b : B2) (bucketName bucketType : String) : Op :=
  viaSession b (fun inst => sessionPost inst "/b2_create_bucket"
    (Json.obj (optStr "accountId" b.accountId ++
      [("bucketName", Json.str bucketName), ("bucketType", Json.str bucketType)])))

/-- Model of `B2.deleteBucket`. -/
def B2.deleteBucket (b : B2) (bucketId : String) : Op :=
  viaSession b (fun inst => sessionPost inst "/b2_delete_bucket"
    (Json.obj (optStr "accountId" b.accountId ++ [("bucketId", Json.str bucketId)])))

/-- Model of `B2.listBuckets`. -/
def B2.listBuckets (b : B2) : Op :=
  viaSession b (fun inst => sessionPost inst "/b2_list_buckets"
    (Json.obj (optStr "accountId" b.accountId)))

/-- Model of `B2.updateBucket`. -/
def B2.updateBucket (b : B2) (bucketId bucketType : String) : Op :=
  viaSession b (fun inst => sessionPost inst "/b2_update_bucket"
    (Json.obj (optStr "accountId" b.accountId ++
      [("bucketId", Json.str bucketId), ("bucketType", Json.str bucketType)])))

/-- Model of `B2.getUploadUrl`. -/
def B2.getUploadUrl (b : B2) (bucketId : String) : Op :=
  viaSession b (fun inst => sessionPost inst "/b2_get_upload_url"
    (Json.obj [("bucketId", Json.str bucketId)]))

/-- Arguments of `B2.uploadFile`. -/
structure UploadFileArgs where
  uploadUrl : String
  uploadAuthToken : String
  filename : String
  data : List Nat
  mime : Option String
  hash : Option String

/-- The request built by `B2.uploadFile`: a POST of the raw bytes to the
ticket URL, with the ticket token as the `Authorization` header, the mime
type defaulted to `b2/x-auto`, the exact byte length, the segment-wise
percent-encoded filename, the supplied hash or the SHA-1 of the payload, and
redirect following disabled. -/
def uploadFileRequest (a : UploadFileArgs) : HttpRequest :=
  { method := "POST"
    url := a.uploadUrl
    headers :=
      [("Authorization", Json.str a.uploadAuthToken),
       ("Content-Type", Json.str (jsOrElse a.mime "b2/x-auto")),
       ("Content-Length", Json.num a.data.length),
       ("X-Bz-File-Name", Json.str (getUrlEncodedFilenameStr a.filename)),
       ("X-Bz-Content-Sha1", Json.str (jsOrElse a.hash (sha1 a.data)))]
    body := ReqBody.bytes a.data
    maxRedirects := some 0 }

/-- Model of `B2.uploadFile`: the upload request goes through the global axios
export (note the source comment about using the global rather than the
instance axios), so no session state is read and no local failure occurs. -/
def B2.uploadFile (_b : B2) (a : UploadFileArgs) : Op :=
  Except.ok (uploadFileRequest a)

/-- Model of `B2.listFileNames`. -/
def B2.listFileNames (b : B2) (bucketId : String) (startFileName : Option String)
    (maxFileCount : Option Int) ( pfx : Option String) (delimiter : Option String) : Op :=
  viaSession b (fun inst => sessionPost inst "/b2_list_file_names"
    (Json.obj ([("bucketId", Json.str bucketId)] ++ optStr "startFileName" startFileName ++
      optNum "maxFileCount" maxFileCount ++ optStr "prefix" pfx ++
      optStr "delimiter" delimiter)))

/-- Model of `B2.listFileVersions`. -/
def B2.listFileVersions (b : B2) (bucketId : String) (startFileName startFileId : Option String)
    (maxFileCount : Option Int) ( pfx : Option String) (delimiter : Option String) : Op :=
  viaSession b (fun inst => sessionPost inst "/b2_list_file_versions"
    (Json.obj ([("bucketId", Json.str bucketId)] ++ optStr "startFileName" startFileName ++
      optStr "startFileId" startFileId ++ optNum "maxFileCount" maxFileCount ++
      optStr "prefix" pfx ++ optStr "delimiter" delimiter)))

/-- Model of `B2.hideFile`. -/
def B2.hideFile (b : B2) (bucketId fileName : String) : Op :=
  viaSession b (fun inst => sessionPost inst "/b2_hide_file"
    (Json.obj [("bucketId", Json.str bucketId), ("fileName", Json.str fileName)]))

/-- Model of `B2.getFileInfo`. -/
def B2.getFileInfo (b : B2) (fileId : String) : Op :=
  viaSession b (fun inst => sessionPost inst "/b2_get_file_info"
    (Json.obj [("fileId", Json.str fileId)]))

/-- Model of `B2.deleteFileVersion`. -/
def B2.deleteFileVersion (b : B2) (fileId fileName : String) : Op :=
  viaSession b (fun inst => sessionPost inst "/b2_delete_file_version"
    (Json.obj [("fileId", Json.str fileId), ("fileName", Json.str fileName)]))

/-- Model of `B2.getDownloadAuthorization`: the caller-supplied fields,
`validDurationInSeconds` included, are posted verbatim as the JSON body. -/
def B2.getDownloadAuthorization (b : B2) (bucketId fileNamePfx : String)
    (validDurationInSeconds : Int) (b2ContentDisposition : Option String) : Op :=
  viaSession b (fun inst => sessionPost inst "/b2_get_download_authorization"
    (Json.obj ([("bucketId", Json.str bucketId),
      ("fileNamePrefix", Json.str fileNamePfx),
      ("validDurationInSeconds", Json.num validDurationInSeconds)] ++
      optStr "b2ContentDisposition" b2ContentDisposition)))

/-- Model of `B2.downloadFileByName`. -/
def B2.downloadFileByName (b : B2) (bucketName fileName : String) : Op :=
  viaSession b (fun inst => sessionGet inst
    (jsTemplate b.downloadUrl ++ "/file/" ++ bucketName ++ "/" ++
      getUrlEncodedFilenameStr fileName))

/-- Model of `B2.downloadFileById`. -/
def B2.downloadFileById (b : B2) (fileId : String) : Op :=
  viaSession b (fun inst => sessionGet inst
    (jsTemplate b.downloadUrl ++ API_VERSION_URL ++ "/b2_download_file_by_id?fileId=" ++ fileId))

/-- Model of `B2.startLargeFile`; the `contentType` parameter defaults to
`b2/x-auto` when `undefined` (JavaScript default-parameter semantics). -/
def B2.startLargeFile (b : B2) (bucketId fileName : String) (contentType : Option String) : Op :=
  viaSession b (fun inst => sessionPost inst "/b2_start_large_file"
    (Json.obj [("bucketId", Json.str bucketId), ("fileName", Json.str fileName),
      ("contentType", Json.str (contentType.getD "b2/x-auto"))]))

/-- Model of `B2.getUploadPartUrl`. -/
def B2.getUploadPartUrl (b : B2) (fileId : String) : Op :=
  viaSession b (fun inst => sessionPost inst "/b2_get_upload_part_url"
    (Json.obj [("fileId", Json.str fileId)]))

/-- The request built by `B2.uploadPart`: a POST of the raw bytes to the
ticket URL, with the ticket token, the exact byte length, the caller-supplied
part number forwarded unmodified, the SHA-1 of the payload (with no caller
override), and redirect following disabled. -/
def uploadPartRequest (uploadUrl uploadAuthToken : String) (partNumber : Int)
    (data : List Nat) : HttpRequest :=
  { method := "POST"
    url := uploadUrl
    headers :=
      [("Authorization", Json.str uploadAuthToken),
       ("Content-Length", Json.num data.length),
       ("X-Bz-Part-Number", Json.num partNumber),
       ("X-Bz-Content-Sha1", Json.str (sha1 data))]
    body := ReqBody.bytes data
    maxRedirects := some 0 }

/-- Model of `B2.uploadPart`: like `uploadFile`, the request goes through the
global axios export, so no session state is read and no local failure
occurs. -/
def B2.uploadPart (_b : B2) (uploadUrl uploadAuthToken : String) (partNumber : Int)
    (data : List Nat) : Op :=
  Except.ok (uploadPartRequest uploadUrl uploadAuthToken partNumber data)

/-- Model of `B2.finishLargeFile`. -/
def B2.finishLargeFile (b : B2) (fileId : String) (partSha1Array : List String) : Op :=
  viaSession b (fun inst => sessionPost inst "/b2_finish_large_file"
    (Json.obj [("fileId", Json.str fileId),
      ("partSha1Array", Json.arr (partSha1Array.map Json.str))]))

/-- Model of `B2.cancelLargeFile`. -/
def B2.cancelLargeFile (b : B2) (fileId : String) : Op :=
  viaSession b (fun inst => sessionPost inst "/b2_cancel_large_file"
    (Json.obj [("fileId", Json.str fileId)]))

/-! ## Bucket-Scoped Facade (class `B2Bucket`) -/

/-- State of the facade: the configured bucket id and the inner Session
Client, both `undefined` until `authorize` runs (definite-assignment
assertions in the source). -/
structure B2Bucket where
  bucketId : Option String
  b2 : Option B2
deriving DecidableEq

/-- A freshly constructed facade (`new B2Bucket()`). -/
def B2Bucket.fresh : B2Bucket := ⟨none, none⟩

/-- The error thrown by the facade `authorize` when the allowed-bucket check
fails; it carries the server-reported allowed bucket id for the message. -/
inductive FacadeError where
  | allowedBucketMismatch : Option String → FacadeError
deriving DecidableEq

/-- JavaScript falsiness of an optional string: `undefined` and the empty
string are falsy. -/
def jsFalsyStr : Option String → Bool
  | none => true
  | some s => s = ""

/-- Model of `B2Bucket.authorize` in the case where the inner Session Client
authorize succeeds with decoded response `res`: the facade bucket id is set
and the inner client replaced first, then the allowed-bucket check runs
(`!allowedBucketId || allowedBucketId !== bucketId`), and either the error is
thrown or the full response is returned. -/
def B2Bucket.authorize (_fb : B2Bucket) (accountId applicationKey bucketId : String)
    (res : AuthorizationResponse) : B2Bucket × Except FacadeError AuthorizationResponse :=
  let inner := (B2.fresh.authorizeSucceed accountId res).1
  let _unusedKey := applicationKey
  let fb1 : B2Bucket := { bucketId := some bucketId, b2 := some inner }
  if jsFalsyStr res.allowed.bucketId || !(res.allowed.bucketId == some bucketId) then
    (fb1, Except.error (FacadeError.allowedBucketMismatch res.allowed.bucketId))
  else
    (fb1, Except.ok res)

/-! ## Generic helper instances and lemmas -/

instance exceptDecEq {ε : Type u} {α : Type v} [DecidableEq ε] [DecidableEq α] :
    DecidableEq (Except ε α)
  | Except.error a, Except.error b =>
    if h : a = b then Decidable.isTrue (by rw [h])
    else Decidable.isFalse (fun hh => h (Except.error.inj hh))
  | Except.error _, Except.ok _ => Decidable.isFalse Except.noConfusion
  | Except.ok _, Except.error _ => Decidable.isFalse Except.noConfusion
  | Except.ok a, Except.ok b =>
    if h : a = b then Decidable.isTrue (by rw [h])
    else Decidable.isFalse (fun hh => h (Except.ok.inj hh))

/-- Sample authorization response whose allowed-capabilities object carries no
bucket id, i.e. an application key that is not restricted to one bucket. -/
def resNoBucket : AuthorizationResponse :=
  { authorizationToken := "session-token"
    apiUrl := "https://api000.backblazeb2.example"
    downloadUrl := "https://f000.backblazeb2.example"
    allowed := { bucketId := none } }

/-! ## Claim theorems -/

/-- C1, counterexample to the claim as stated: with configured `bucketId` the
empty string and the server-reported allowed bucket id also the empty string,
the two are equal, yet the facade `authorize` does not return the response:
the JavaScript truthiness test `!allowedBucketId` also rejects a present but
empty allowed bucket id. -/
theorem C1_counterexample_authorize_empty_equal_ids :
    (B2Bucket.fresh.authorize "acct" "key" ""
        { authorizationToken := "session-token"
          apiUrl := "https://api000.backblazeb2.example"
          downloadUrl := "https://f000.backblazeb2.example"
          allowed := { bucketId := some "" } }).2 ≠
      Except.ok
        { authorizationToken := "session-token"
          apiUrl := "https://api000.backblazeb2.example"
          downloadUrl := "https://f000.backblazeb2.example"
          allowed := { bucketId := some "" } } := by
  decide

/-- C1, amended: when the underlying session authorize succeeds with response
`res`, the facade `authorize` returns the full response exactly when the
allowed bucket id is present, equal to the configured `bucketId`, and that id
is nonempty; otherwise (allowed id absent, empty, or different) it throws the
mismatch error before returning. -/
theorem C1_amended_authorize_allowed_bucket_check :
    ∀ (fb : B2Bucket) (acc key bid : String) (res : AuthorizationResponse),
      (fb.authorize acc key bid res).2 =
        (if res.allowed.bucketId = some bid ∧ bid ≠ "" then Except.ok res
         else Except.error (FacadeError.allowedBucketMismatch res.allowed.bucketId)) := by
  intro fb acc key bid res
  obtain ⟨tok, api, dl, ⟨obid⟩⟩ := res
  unfold B2Bucket.authorize
  rcases obid with _ | a
  · simp [jsFalsyStr]
  · by_cases h1 : a = ""
    · subst h1
      rcases eq_or_ne bid "" with h2 | h2
      · subst h2
        simp [jsFalsyStr]
      · simp [jsFalsyStr, h2, Ne.symm h2]
    · by_cases h2 : a = bid
      · subst h2
        simp [jsFalsyStr, h1, beq_iff_eq]
      · have h2x : ¬(some a = some bid) := by simp [h2]
        simp [jsFalsyStr, h1, h2, h2x, beq_iff_eq]

/-- C2, counterexample to the claim as stated: `uploadFile` is a Session
Client operation other than `authorize`, and invoked on a client on which
`authorize` has never completed it does not fail locally — it goes through
the global transport export and issues the network request to the ticket
upload URL. -/
theorem C2_counterexample_uploadFile_before_authorize :
    (B2.fresh.uploadFile
        { uploadUrl := "https://pod-000.backblazeb2.example/upload"
          uploadAuthToken := "ticket-token"
          filename := "f.txt"
          data := []
          mime := none
          hash := none }).isOk = true :=
  rfl

/-- C2, amended: every Session Client operation that is routed through the
session axios instance — that is, every operation other than `authorize`,
`uploadFile` and `uploadPart` — fails with the uninitialized-session
configuration error when invoked before `authorize` has completed, and no
request is produced for the transport. -/
theorem C2_amended_preauth_session_ops_fail :
    ∀ (s1 s2 : String) (os1 os2 os3 os4 : Option String) (n : Option Int) (d : Int)
      (ps : List String),
      B2.fresh.createBucket s1 s2 = Except.error ClientError.missingSession ∧
      B2.fresh.deleteBucket s1 = Except.error ClientError.missingSession ∧
      B2.fresh.listBuckets = Except.error ClientError.missingSession ∧
      B2.fresh.updateBucket s1 s2 = Except.error ClientError.missingSession ∧
      B2.fresh.getUploadUrl s1 = Except.error ClientError.missingSession ∧
      B2.fresh.listFileNames s1 os1 n os2 os3 = Except.error ClientError.missingSession ∧
      B2.fresh.listFileVersions s1 os1 os2 n os3 os4 = Except.error ClientError.missingSession ∧
      B2.fresh.hideFile s1 s2 = Except.error ClientError.missingSession ∧
      B2.fresh.getFileInfo s1 = Except.error ClientError.missingSession ∧
      B2.fresh.deleteFileVersion s1 s2 = Except.error ClientError.missingSession ∧
      B2.fresh.getDownloadAuthorization s1 s2 d os1 = Except.error ClientError.missingSession ∧
      B2.fresh.downloadFileByName s1 s2 = Except.error ClientError.missingSession ∧
      B2.fresh.downloadFileById s1 = Except.error ClientError.missingSession ∧
      B2.fresh.startLargeFile s1 s2 os1 = Except.error ClientError.missingSession ∧
      B2.fresh.getUploadPartUrl s1 = Except.error ClientError.missingSession ∧
      B2.fresh.finishLargeFile s1 ps = Except.error ClientError.missingSession ∧
      B2.fresh.cancelLargeFile s1 = Except.error ClientError.missingSession :=
  fun _ _ _ _ _ _ _ _ _ =>
    ⟨rfl, rfl, rfl, rfl, rfl, rfl, rfl, rfl, rfl, rfl, rfl, rfl, rfl, rfl, rfl, rfl, rfl⟩

/-- C3, counterexample to the claim as stated: when the caller supplies the
empty string as the hash, the checksum header is not the caller-supplied
hash — the JavaScript fallback `hash || sha1(data)` treats the empty string
as absent and computes the SHA-1 of the payload instead. -/
theorem C3_counterexample_empty_supplied_hash :
    ((B2.fresh.uploadFile
        { uploadUrl := "https://pod-000.backblazeb2.example/upload"
          uploadAuthToken := "ticket-token"
          filename := "f.txt"
          data := []
          mime := none
          hash := some "" }).toOption.map
      (fun req => getHeader req "X-Bz-Content-Sha1")) ≠
      some (some (Json.str "")) := by
  have h0 : ((B2.fresh.uploadFile
      { uploadUrl := "https://pod-000.backblazeb2.example/upload"
        uploadAuthToken := "ticket-token"
        filename := "f.txt"
        data := []
        mime := none
        hash := some "" }).toOption.map
      (fun req => getHeader req "X-Bz-Content-Sha1")) =
      some (some (Json.str (sha1 []))) := rfl
  have h1 : sha1 [] = "da39a3ee5e6b4b0d3255bfef95601890afd80709" := by decide
  rw [h0, h1]
  simp

/-- C3, amended: on every `uploadFile` call the `X-Bz-Content-Sha1` header
equals the caller-supplied hash when a nonempty hash is supplied, and equals
the SHA-1 hex digest of the exact byte payload when the hash is absent or the
empty string. -/
theorem C3_amended_uploadFile_checksum_header :
    ∀ (b : B2) (a : UploadFileArgs) (req : HttpRequest) (h : String),
      b.uploadFile a = Except.ok req →
      (a.hash = some h → h ≠ "" → getHeader req "X-Bz-Content-Sha1" = some (Json.str h)) ∧
      ((a.hash = none ∨ a.hash = some "") →
        getHeader req "X-Bz-Content-Sha1" = some (Json.str (sha1 a.data))) := by
  intro b a req h hok
  have hreq : uploadFileRequest a = req := Except.ok.inj hok
  subst hreq
  constructor
  · intro hh hne
    simp [uploadFileRequest, getHeader, jsOrElse, hh, hne]
  · intro hcase
    rcases hcase with hc | hc <;> simp [uploadFileRequest, getHeader, jsOrElse, hc]

/-- Witness for C3 at a concrete call: with no caller-supplied hash and the
empty payload, the checksum header is the SHA-1 digest of the payload. -/
theorem C3_amended_witness :
    getHeader (uploadFileRequest
        { uploadUrl := "https://pod-000.backblazeb2.example/upload"
          uploadAuthToken := "ticket-token"
          filename := "f.txt"
          data := []
          mime := none
          hash := none }) "X-Bz-Content-Sha1" = some (Json.str (sha1 [])) :=
  (C3_amended_uploadFile_checksum_header B2.fresh
    { uploadUrl := "https://pod-000.backblazeb2.example/upload"
      uploadAuthToken := "ticket-token"
      filename := "f.txt"
      data := []
      mime := none
      hash := none }
    (uploadFileRequest
      { uploadUrl := "https://pod-000.backblazeb2.example/upload"
        uploadAuthToken := "ticket-token"
        filename := "f.txt"
        data := []
        mime := none
        hash := none })
    "x" rfl).2 (Or.inl rfl)

/-- C4: for every filename, `getUrlEncodedFilename` returns the string
obtained by splitting the filename on `/`, percent-encoding each segment
independently, and rejoining with literal `/`; in particular it maps
`a b/c#d` to `a%20b/c%23d`. -/
theorem C4_getUrlEncodedFilename_segmentwise :
    (∀ f : String, getUrlEncodedFilenameStr f =
        String.mk (joinSlash ((splitOnSlash f.data).map encodeURIComponent))) ∧
    getUrlEncodedFilenameStr "a b/c#d" = "a%20b/c%23d" :=
  ⟨fun _ => rfl, by decide⟩

/-- C5: every `uploadPart` request carries the SHA-1 hex digest of the part
payload in `X-Bz-Content-Sha1` unconditionally (there is no caller-supplied
hash parameter), and the caller-supplied part number — any integer, with no
local range validation against [1, 10000] — is forwarded unmodified in
`X-Bz-Part-Number`. -/
theorem C5_uploadPart_unconditional_sha1_and_raw_partNumber :
    ∀ (b : B2) (url tok : String) (pn : Int) (data : List Nat),
      ∃ req, b.uploadPart url tok pn data = Except.ok req ∧
        getHeader req "X-Bz-Content-Sha1" = some (Json.str (sha1 data)) ∧
        getHeader req "X-Bz-Part-Number" = some (Json.num pn) :=
  fun _ url tok pn data => ⟨uploadPartRequest url tok pn data, rfl, rfl, rfl⟩

/-- C6: `uploadFile` and `uploadPart` requests are issued to the ticket upload
URL with the ticket token as the `Authorization` header, and the session
state has no influence: two clients differing arbitrarily (in particular in
session token) produce identical upload requests. -/
theorem C6_uploads_use_bare_transport_and_ticket_token :
    ∀ (b b' : B2) (a : UploadFileArgs) (url tok : String) (pn : Int) (data : List Nat),
      b.uploadFile a = b'.uploadFile a ∧
      b.uploadPart url tok pn data = b'.uploadPart url tok pn data ∧
      (∃ req, b.uploadFile a = Except.ok req ∧ req.url = a.uploadUrl ∧
        getHeader req "Authorization" = some (Json.str a.uploadAuthToken)) ∧
      (∃ req, b.uploadPart url tok pn data = Except.ok req ∧ req.url = url ∧
        getHeader req "Authorization" = some (Json.str tok)) :=
  fun _ _ a url tok pn data =>
    ⟨rfl, rfl, ⟨uploadFileRequest a, rfl, rfl, rfl⟩,
      ⟨uploadPartRequest url tok pn data, rfl, rfl, rfl⟩⟩

/-- C7: both `uploadFile` and `uploadPart` configure the transport with a
maximum redirect count of 0, disabling automatic redirect following. -/
theorem C7_uploads_disable_redirects :
    ∀ (b : B2) (a : UploadFileArgs) (url tok : String) (pn : Int) (data : List Nat),
      (∃ req, b.uploadFile a = Except.ok req ∧ req.maxRedirects = some 0) ∧
      (∃ req, b.uploadPart url tok pn data = Except.ok req ∧ req.maxRedirects = some 0) :=
  fun _ a url tok pn data =>
    ⟨⟨uploadFileRequest a, rfl, rfl⟩, ⟨uploadPartRequest url tok pn data, rfl, rfl⟩⟩

/-- C8: on an authorized client, `getDownloadAuthorization` places the
caller-supplied `validDurationInSeconds` — any integer, including values
outside [1, 604800] — in the request body unmodified: no clamping and no
local range validation. -/
theorem C8_validDurationInSeconds_unclamped :
    ∀ (inst : AxiosInstance) (acc dl : Option String) (bid fnp : String) (d : Int)
      (cd : Option String),
      ∃ req,
        (B2.mk (some inst) acc dl).getDownloadAuthorization bid fnp d cd = Except.ok req ∧
        bodyField req "validDurationInSeconds" = some (Json.num d) :=
  fun _inst _acc _dl _bid _fnp _d _cd => ⟨_, rfl, rfl⟩

/-- C9: when the facade `authorize` reports an error (mismatched or absent
allowed bucket id), the facade state has nonetheless already been mutated:
`bucketId` holds the supplied bucket id and the inner client has been
replaced by the freshly authorized session. -/
theorem C9_authorize_mutates_state_before_throwing :
    ∀ (fb : B2Bucket) (acc key bid : String) (res : AuthorizationResponse) (e : FacadeError),
      (fb.authorize acc key bid res).2 = Except.error e →
      (fb.authorize acc key bid res).1.bucketId = some bid ∧
      (fb.authorize acc key bid res).1.b2 = some (B2.fresh.authorizeSucceed acc res).1 := by
  intro fb acc key bid res e _h
  unfold B2Bucket.authorize
  dsimp only
  split <;> exact ⟨rfl, rfl⟩

/-- Witness for C9 at a concrete failing call: the allowed object has no
bucket id, `authorize` throws, and the facade state is nonetheless updated. -/
theorem C9_authorize_mutates_state_witness :
    (B2Bucket.fresh.authorize "acct" "key" "bucket1" resNoBucket).1.bucketId = some "bucket1" ∧
    (B2Bucket.fresh.authorize "acct" "key" "bucket1" resNoBucket).1.b2 =
      some (B2.fresh.authorizeSucceed "acct" resNoBucket).1 :=
  C9_authorize_mutates_state_before_throwing B2Bucket.fresh "acct" "key" "bucket1" resNoBucket
    (FacadeError.allowedBucketMismatch none) rfl

/-! ## Round-trip lemmas for the percent encoding (claim C10) -/

/-- Unicode scalar values are below 1114112. -/
theorem char_toNat_lt (c : Char) : c.toNat < 1114112 := by
  have he : c.toNat = c.val.toNat := rfl
  rcases c.valid with h | ⟨h1, h2⟩ <;> omega

/-- The UTF-8 decoder consumes the encoding of one code point and continues. -/
theorem utf8Decode_utf8Bytes_append (n : Nat) (rest : List Nat) :
    utf8DecodeGo 0 0 (utf8Bytes n ++ rest) = Char.ofNat n :: utf8DecodeGo 0 0 rest := by
  unfold utf8Bytes
  by_cases h1 : n < 128
  · simp only [if_pos h1, List.cons_append, List.nil_append]
    simp [utf8DecodeGo, h1]
  · by_cases h2 : n < 2048
    · simp only [if_neg h1, if_pos h2, List.cons_append, List.nil_append]
      have c1 : ¬(192 + n / 64 < 128) := by omega
      have c2 : 192 + n / 64 < 224 := by omega
      simp [utf8DecodeGo, c1, c2]
      congr 1
      omega
    · by_cases h3 : n < 65536
      · simp only [if_neg h1, if_neg h2, if_pos h3, List.cons_append, List.nil_append]
        have c1 : ¬(224 + n / 4096 < 128) := by omega
        have c2 : ¬(224 + n / 4096 < 224) := by omega
        have c3 : 224 + n / 4096 < 240 := by omega
        simp [utf8DecodeGo, c1, c2, c3]
        congr 1
        omega
      · simp only [if_neg h1, if_neg h2, if_neg h3, List.cons_append, List.nil_append]
        have c1 : ¬(240 + n / 262144 < 128) := by omega
        have c2 : ¬(240 + n / 262144 < 224) := by omega
        have c3 : ¬(240 + n / 262144 < 240) := by omega
        simp [utf8DecodeGo, c1, c2, c3]
        congr 1
        omega

/-- Character-level version of `utf8Decode_utf8Bytes_append`. -/
theorem utf8Decode_char_append (c : Char) (rest : List Nat) :
    utf8Decode (utf8Bytes c.toNat ++ rest) = c :: utf8Decode rest := by
  unfold utf8Decode
  rw [utf8Decode_utf8Bytes_append, Char.ofNat_toNat]

/-- UTF-8 decoding inverts character-wise UTF-8 encoding. -/
theorem utf8Decode_flatMap (s : List Char) :
    utf8Decode (s.flatMap (fun c => utf8Bytes c.toNat)) = s := by
  induction s with
  | nil => rfl
  | cons c cs ih => rw [List.flatMap_cons, utf8Decode_char_append, ih]

/-- All UTF-8 bytes of a valid code point fit in one byte. -/
theorem utf8Bytes_lt_256 {n : Nat} (hn : n < 1114112) : ∀ b ∈ utf8Bytes n, b < 256 := by
  unfold utf8Bytes
  split_ifs with h1 h2 h3 <;> intro b hb <;> simp at hb <;> omega

/-- The uppercase hex digit function is inverted by `hexVal`. -/
theorem hexVal_hexUpperChar {x : Nat} (hx : x < 16) : hexVal (hexUpperChar x) = x := by
  interval_cases x <;> decide

/-- Hex digits are never the percent sign. -/
theorem hexUpperChar_ne_percent {x : Nat} (hx : x < 16) : hexUpperChar x ≠ '%' := by
  interval_cases x <;> decide

/-- Hex digits are never a slash. -/
theorem hexUpperChar_ne_slash {x : Nat} (hx : x < 16) : hexUpperChar x ≠ '/' := by
  interval_cases x <;> decide

/-- The percent parser inverts a run of percent triples. -/
theorem percentParse_triples (bs : List Nat) (rest : List Char) (hb : ∀ b ∈ bs, b < 256) :
    percentParse (bs.flatMap percentTriple ++ rest) = bs ++ percentParse rest := by
  induction bs with
  | nil => simp
  | cons b bs ih =>
    have hblt : b < 256 := hb b (List.mem_cons_self _ _)
    have hdiv : b / 16 < 16 := by omega
    have hmod : b % 16 < 16 := by omega
    rw [List.flatMap_cons]
    show percentParse ('%' :: hexUpperChar (b / 16) :: hexUpperChar (b % 16) ::
      (bs.flatMap percentTriple ++ rest)) = (b :: bs) ++ percentParse rest
    simp only [percentParse, if_true]
    rw [hexVal_hexUpperChar hdiv, hexVal_hexUpperChar hmod]
    have harith : b / 16 * 16 + b % 16 = b := by omega
    rw [harith, ih (fun x hx => hb x (List.mem_cons_of_mem _ hx))]
    rfl

/-- The percent parser maps the encoding of one character to its UTF-8
bytes and continues. -/
theorem percentParse_encodeChar (c : Char) (rest : List Char) :
    percentParse (encodeChar c ++ rest) = utf8Bytes c.toNat ++ percentParse rest := by
  unfold encodeChar
  by_cases hu : isUnreservedCode c.toNat
  · simp only [if_pos hu, List.cons_append, List.nil_append]
    have hc : ¬(c = '%') := by
      intro hh
      subst hh
      revert hu
      decide
    rcases rest with _ | ⟨d, _ | ⟨e, r⟩⟩
    · simp [percentParse, hc]
    · simp [percentParse, hc]
    · simp [percentParse, hc]
  · simp only [if_neg hu]
    exact percentParse_triples _ _ (utf8Bytes_lt_256 (char_toNat_lt c))

/-- The percent parser inverts `encodeURIComponent` down to UTF-8 bytes. -/
theorem percentParse_encode (s : List Char) :
    percentParse (encodeURIComponent s) = s.flatMap (fun c => utf8Bytes c.toNat) := by
  induction s with
  | nil => rfl
  | cons c cs ih =>
    unfold encodeURIComponent at ih ⊢
    rw [List.flatMap_cons, List.flatMap_cons, percentParse_encodeChar, ih]

/-- Decoding inverts encoding on every segment. -/
theorem decode_encode (s : List Char) :
    decodeURIComponent (encodeURIComponent s) = s := by
  unfold decodeURIComponent
  rw [percentParse_encode, utf8Decode_flatMap]

/-- A percent triple never contains a slash. -/
theorem slash_not_mem_percentTriple {b : Nat} (hb : b < 256) : '/' ∉ percentTriple b := by
  have h1 : b / 16 < 16 := by omega
  have h2 : b % 16 < 16 := by omega
  intro hmem
  simp only [percentTriple, List.mem_cons, List.not_mem_nil, or_false] at hmem
  rcases hmem with h | h | h
  · exact absurd h (by decide)
  · exact hexUpperChar_ne_slash h1 h.symm
  · exact hexUpperChar_ne_slash h2 h.symm

/-- The encoding of a character never contains a slash: the slash is not
unreserved, so it can only appear escaped as `%2F`. -/
theorem slash_not_mem_encodeChar (c : Char) : '/' ∉ encodeChar c := by
  unfold encodeChar
  by_cases hu : isUnreservedCode c.toNat
  · simp only [if_pos hu, List.mem_singleton]
    intro hh
    rw [← hh] at hu
    revert hu
    decide
  · simp only [if_neg hu]
    intro hmem
    rcases List.mem_flatMap.mp hmem with ⟨b, hbmem, hmemb⟩
    exact slash_not_mem_percentTriple (utf8Bytes_lt_256 (char_toNat_lt c) b hbmem) hmemb

/-- Encoded segments never contain a slash. -/
theorem slash_not_mem_encode (s : List Char) : '/' ∉ encodeURIComponent s := by
  intro hmem
  rcases List.mem_flatMap.mp hmem with ⟨c, _, hmemc⟩
  exact slash_not_mem_encodeChar c hmemc

/-- Result of extending a segment list is never empty. -/
theorem consHead_ne_nil (c : Char) (l : List (List Char)) : consHead c l ≠ [] := by
  cases l <;> simp [consHead]

/-- Splitting never yields the empty list of segments. -/
theorem splitOnSlash_ne_nil (s : List Char) : splitOnSlash s ≠ [] := by
  cases s with
  | nil => simp [splitOnSlash]
  | cons c cs =>
    simp only [splitOnSlash]
    by_cases h : c = '/'
    · simp [h]
    · rw [if_neg h]
      exact consHead_ne_nil _ _

/-- Joining inverts splitting. -/
theorem joinSlash_splitOnSlash (s : List Char) : joinSlash (splitOnSlash s) = s := by
  induction s with
  | nil => rfl
  | cons c cs ih =>
    rcases hsp : splitOnSlash cs with _ | ⟨p, ps⟩
    · exact absurd hsp (splitOnSlash_ne_nil cs)
    · rw [hsp] at ih
      simp only [splitOnSlash, hsp]
      by_cases h : c = '/'
      · subst h
        rw [if_pos rfl]
        simp only [joinSlash, List.nil_append]
        rw [ih]
      · rw [if_neg h]
        simp only [consHead]
        cases ps with
        | nil =>
          simp only [joinSlash] at ih ⊢
          rw [ih]
        | cons q qs =>
          simp only [joinSlash, List.cons_append] at ih ⊢
          rw [ih]

/-- Splitting a slash-free string yields one segment. -/
theorem splitOnSlash_no_slash (s : List Char) (h : '/' ∉ s) : splitOnSlash s = [s] := by
  induction s with
  | nil => rfl
  | cons c cs ih =>
    have hc : ¬(c = '/') := by
      intro hh
      subst hh
      exact h (List.mem_cons_self _ _)
    have hcs : '/' ∉ cs := fun hh => h (List.mem_cons_of_mem _ hh)
    simp only [splitOnSlash]
    rw [if_neg hc, ih hcs]
    simp [consHead]

/-- Splitting a slash-free segment followed by a slash peels one segment. -/
theorem splitOnSlash_append (s t : List Char) (h : '/' ∉ s) :
    splitOnSlash (s ++ '/' :: t) = s :: splitOnSlash t := by
  induction s with
  | nil =>
    simp only [List.nil_append, splitOnSlash, if_true]
  | cons c cs ih =>
    have hc : ¬(c = '/') := by
      intro hh
      subst hh
      exact h (List.mem_cons_self _ _)
    have hcs : '/' ∉ cs := fun hh => h (List.mem_cons_of_mem _ hh)
    simp only [List.cons_append, splitOnSlash, List.append_eq]
    rw [if_neg hc, ih hcs]
    simp [consHead]

/-- Splitting inverts joining on slash-free segment lists. -/
theorem splitOnSlash_joinSlash (ps : List (List Char)) (hne : ps ≠ [])
    (h : ∀ p ∈ ps, '/' ∉ p) : splitOnSlash (joinSlash ps) = ps := by
  induction ps with
  | nil => exact absurd rfl hne
  | cons p ps ih =>
    cases ps with
    | nil =>
      simp only [joinSlash]
      exact splitOnSlash_no_slash p (h p (List.mem_cons_self _ _))
    | cons q qs =>
      simp only [joinSlash]
      rw [splitOnSlash_append _ _ (h p (List.mem_cons_self _ _))]
      rw [ih (by simp) (fun r hr => h r (List.mem_cons_of_mem _ hr))]

/-- C10: `getUrlEncodedFilename` is lossless — splitting the encoded result
on `/`, percent-decoding each segment, and rejoining with `/` yields the
original filename. -/
theorem C10_getUrlEncodedFilename_lossless :
    ∀ f : String,
      String.mk (joinSlash ((splitOnSlash (getUrlEncodedFilenameStr f).data).map
        decodeURIComponent)) = f := by
  intro f
  show String.mk (joinSlash ((splitOnSlash
    (getUrlEncodedFilename f.data)).map decodeURIComponent)) = f
  unfold getUrlEncodedFilename
  have hne : (splitOnSlash f.data).map encodeURIComponent ≠ [] := by
    intro hh
    rcases hsp : splitOnSlash f.data with _ | ⟨p, ps⟩
    · exact splitOnSlash_ne_nil f.data hsp
    · rw [hsp] at hh
      exact List.noConfusion hh
  have hslash : ∀ p ∈ (splitOnSlash f.data).map encodeURIComponent, '/' ∉ p := by
    intro p hp
    rcases List.mem_map.mp hp with ⟨q, _, rfl⟩
    exact slash_not_mem_encode q
  have hfun : decodeURIComponent ∘ encodeURIComponent = id := funext decode_encode
  rw [splitOnSlash_joinSlash _ hne hslash, List.map_map, hfun, List.map_id,
    joinSlash_splitOnSlash]

end EZB2
